import Mathlib

/-!
Shallow embedding of the controlled-overlap synthetic identity generator of the
summit_sports repository (files `dual_crm_generator.py` and
`crocevia_crm_generator.py`), together with theorems settling the claims about
the Overlap Planner, the Overlap Applicator, the category assignment, the
duplicate injectors and the batch pipeline.

Numeric conventions: Python floats are modelled by exact rationals (ℚ);
Python `int(x)` (truncation toward zero) is modelled by `pyInt`.
Randomness (calls into `random`, `np.random`, `Faker`) is modelled by
explicitly passed oracle data: permutations, index lists and choice
functions standing for the values the seeded generator produced.
-/

namespace SummitSports

/-- The Summit overlap target constant, 0.60 (dual_crm_generator.py, line 61). -/
def summitOverlapRatio : ℚ := 3/5

/-- The duplicate-profiles constant, 0.03 (dual_crm_generator.py, line 58). -/
def duplicateProfileRatio : ℚ := 3/100

/-- Python's `int(q)` on a float: truncation toward zero. -/
def pyInt (q : ℚ) : ℤ := if q < 0 then ⌈q⌉ else ⌊q⌋

/-- `OverlapPlan` (dual_crm_generator.py, lines 70-88): proportions for the
overlap field-combination categories, with the source's defaults. -/
structure OverlapPlan where
  all_fields : ℚ := 1/10
  three_fields : ℚ := 2/10
  two_fields : ℚ := 2/10
  one_field : ℚ := 1/10
deriving DecidableEq, Repr

/-- The sum `total` computed at the top of `OverlapPlan.normalized`. -/
def OverlapPlan.total (p : OverlapPlan) : ℚ :=
  p.all_fields + p.three_fields + p.two_fields + p.one_field

/-- `OverlapPlan.normalized` (dual_crm_generator.py, lines 79-88): rescale the
four weights so that they sum to `summitOverlapRatio`; if the sum is zero,
return the plan unchanged. -/
def OverlapPlan.normalized (p : OverlapPlan) : OverlapPlan :=
  if p.total = 0 then p
  else
    { all_fields := p.all_fields / p.total * summitOverlapRatio
      three_fields := p.three_fields / p.total * summitOverlapRatio
      two_fields := p.two_fields / p.total * summitOverlapRatio
      one_field := p.one_field / p.total * summitOverlapRatio }

/-- `target_overlap = int(n * overlap_ratio)`
(dual_crm_generator.py, line 311). -/
def targetOverlap (n : ℕ) (r : ℚ) : ℤ := pyInt (n * r)

/-- The Overlap Planner: the category-count computation of
`_apply_overlap_to_summit_batch` (dual_crm_generator.py, lines 309-325).
The plan is normalized first (line 309); each count is
`int(target_overlap * weight)` (lines 319-322); the remainder
`target_overlap - used` is added to the one-field count (lines 324-325).
Result: `(c_all, c_three, c_two, c_one)`. -/
def planCounts (n : ℕ) (r : ℚ) (plan0 : OverlapPlan) : ℤ × ℤ × ℤ × ℤ :=
  let plan := plan0.normalized
  let t := targetOverlap n r
  let c_all := pyInt (t * plan.all_fields)
  let c_three := pyInt (t * plan.three_fields)
  let c_two := pyInt (t * plan.two_fields)
  let c_one := pyInt (t * plan.one_field)
  let used := c_all + c_three + c_two + c_one
  (c_all, c_three, c_two, c_one + (t - used))

/-- On non-negative arguments Python truncation agrees with floor. -/
theorem pyInt_of_nonneg {q : ℚ} (h : 0 ≤ q) : pyInt q = ⌊q⌋ := by
  simp [pyInt, not_lt.mpr h]

theorem pyInt_nonneg {q : ℚ} (h : 0 ≤ q) : 0 ≤ pyInt q := by
  rw [pyInt_of_nonneg h]
  exact Int.floor_nonneg.mpr h

theorem pyInt_le {q : ℚ} (h : 0 ≤ q) : (pyInt q : ℚ) ≤ q := by
  rw [pyInt_of_nonneg h]
  exact Int.floor_le q

theorem pyInt_zero : pyInt 0 = 0 := by norm_num [pyInt]

/-- Closed form of `planCounts`: the first three counts are the floored
shares of the normalized weights, and the one-field slot absorbs the
remainder, i.e. equals `target_overlap` minus the other three counts. -/
theorem planCounts_eq (n : ℕ) (r : ℚ) (p : OverlapPlan) :
    planCounts n r p =
      (pyInt (targetOverlap n r * p.normalized.all_fields),
       pyInt (targetOverlap n r * p.normalized.three_fields),
       pyInt (targetOverlap n r * p.normalized.two_fields),
       targetOverlap n r -
         (pyInt (targetOverlap n r * p.normalized.all_fields) +
          pyInt (targetOverlap n r * p.normalized.three_fields) +
          pyInt (targetOverlap n r * p.normalized.two_fields))) := by
  simp only [planCounts, Prod.mk.injEq, true_and, and_true]
  ring

theorem total_ne_zero_normalized_fields {p : OverlapPlan} (h : p.total ≠ 0) :
    p.normalized = ⟨p.all_fields / p.total * summitOverlapRatio,
      p.three_fields / p.total * summitOverlapRatio,
      p.two_fields / p.total * summitOverlapRatio,
      p.one_field / p.total * summitOverlapRatio⟩ := by
  simp [OverlapPlan.normalized, h]

end SummitSports

namespace SummitSports

/-- C1: for batch size `n > 0`, ratio `r ∈ [0,1]`, non-negative weights with
positive sum, the planner's four category counts are non-negative, sum to
`⌊r * n⌋`, and the one-field (lowest-priority) count carries the remainder:
it equals `⌊r * n⌋` minus the three floored higher-priority counts. -/
theorem planCounts_partition (n : ℕ) (r : ℚ) (p : OverlapPlan)
    (hn : 0 < n) (hr0 : 0 ≤ r) (hr1 : r ≤ 1)
    (ha : 0 ≤ p.all_fields) (h3 : 0 ≤ p.three_fields)
    (h2 : 0 ≤ p.two_fields) (h1 : 0 ≤ p.one_field) (hs : 0 < p.total) :
    0 ≤ (planCounts n r p).1 ∧ 0 ≤ (planCounts n r p).2.1 ∧
    0 ≤ (planCounts n r p).2.2.1 ∧ 0 ≤ (planCounts n r p).2.2.2 ∧
    (planCounts n r p).1 + (planCounts n r p).2.1 +
      (planCounts n r p).2.2.1 + (planCounts n r p).2.2.2 = ⌊(n : ℚ) * r⌋ ∧
    (planCounts n r p).2.2.2 =
      ⌊(n : ℚ) * r⌋ -
        ((planCounts n r p).1 + (planCounts n r p).2.1 + (planCounts n r p).2.2.1) := by
  have htq : (0 : ℚ) ≤ (n : ℚ) * r := mul_nonneg (by positivity) hr0
  have htfloor : targetOverlap n r = ⌊(n : ℚ) * r⌋ := pyInt_of_nonneg htq
  have ht0 : (0 : ℤ) ≤ targetOverlap n r := pyInt_nonneg htq
  have htq0 : (0 : ℚ) ≤ ((targetOverlap n r : ℤ) : ℚ) := by exact_mod_cast ht0
  have hne : p.total ≠ 0 := ne_of_gt hs
  have hnorm := total_ne_zero_normalized_fields hne
  have hR : (0 : ℚ) ≤ summitOverlapRatio := by norm_num [summitOverlapRatio]
  have hna : 0 ≤ p.normalized.all_fields := by
    rw [hnorm]; exact mul_nonneg (div_nonneg ha hs.le) hR
  have hn3 : 0 ≤ p.normalized.three_fields := by
    rw [hnorm]; exact mul_nonneg (div_nonneg h3 hs.le) hR
  have hn2 : 0 ≤ p.normalized.two_fields := by
    rw [hnorm]; exact mul_nonneg (div_nonneg h2 hs.le) hR
  have hA0 : 0 ≤ pyInt (targetOverlap n r * p.normalized.all_fields) :=
    pyInt_nonneg (mul_nonneg htq0 hna)
  have hB0 : 0 ≤ pyInt (targetOverlap n r * p.normalized.three_fields) :=
    pyInt_nonneg (mul_nonneg htq0 hn3)
  have hC0 : 0 ≤ pyInt (targetOverlap n r * p.normalized.two_fields) :=
    pyInt_nonneg (mul_nonneg htq0 hn2)
  have hsum3 : p.normalized.all_fields + p.normalized.three_fields +
      p.normalized.two_fields ≤ 1 := by
    rw [hnorm]
    have hle : p.all_fields + p.three_fields + p.two_fields ≤ p.total := by
      simp only [OverlapPlan.total]; linarith
    have hdiv : (p.all_fields + p.three_fields + p.two_fields) / p.total ≤ 1 :=
      (div_le_one hs).mpr hle
    have hdiv0 : 0 ≤ (p.all_fields + p.three_fields + p.two_fields) / p.total :=
      div_nonneg (by linarith) hs.le
    show p.all_fields / p.total * summitOverlapRatio +
        p.three_fields / p.total * summitOverlapRatio +
        p.two_fields / p.total * summitOverlapRatio ≤ 1
    have heq : p.all_fields / p.total * summitOverlapRatio +
        p.three_fields / p.total * summitOverlapRatio +
        p.two_fields / p.total * summitOverlapRatio =
        (p.all_fields + p.three_fields + p.two_fields) / p.total *
          summitOverlapRatio := by ring
    rw [heq]
    calc (p.all_fields + p.three_fields + p.two_fields) / p.total *
          summitOverlapRatio ≤ 1 * summitOverlapRatio := by
          exact mul_le_mul_of_nonneg_right hdiv hR
      _ ≤ 1 := by norm_num [summitOverlapRatio]
  have hABC : pyInt (targetOverlap n r * p.normalized.all_fields) +
      pyInt (targetOverlap n r * p.normalized.three_fields) +
      pyInt (targetOverlap n r * p.normalized.two_fields) ≤ targetOverlap n r := by
    have hAq := pyInt_le (mul_nonneg htq0 hna)
    have hBq := pyInt_le (mul_nonneg htq0 hn3)
    have hCq := pyInt_le (mul_nonneg htq0 hn2)
    have hq : ((pyInt (targetOverlap n r * p.normalized.all_fields) +
        pyInt (targetOverlap n r * p.normalized.three_fields) +
        pyInt (targetOverlap n r * p.normalized.two_fields) : ℤ) : ℚ) ≤
        ((targetOverlap n r : ℤ) : ℚ) := by
      push_cast
      have hmul : ((targetOverlap n r : ℤ) : ℚ) *
          (p.normalized.all_fields + p.normalized.three_fields +
            p.normalized.two_fields) ≤ ((targetOverlap n r : ℤ) : ℚ) * 1 :=
        mul_le_mul_of_nonneg_left hsum3 htq0
      have hgoal : ((targetOverlap n r : ℤ) : ℚ) * p.normalized.all_fields +
          ((targetOverlap n r : ℤ) : ℚ) * p.normalized.three_fields +
          ((targetOverlap n r : ℤ) : ℚ) * p.normalized.two_fields =
          ((targetOverlap n r : ℤ) : ℚ) *
            (p.normalized.all_fields + p.normalized.three_fields +
              p.normalized.two_fields) := by ring
      nlinarith [hAq, hBq, hCq]
    exact_mod_cast hq
  rw [planCounts_eq]
  refine ⟨hA0, hB0, hC0, by simpa using sub_nonneg.mpr hABC, by rw [← htfloor]; ring,
    by rw [← htfloor]⟩

/-- Witness for `planCounts_partition` at batch size 1000, ratio 3/5 and the
source-default plan weights. -/
theorem planCounts_partition_witness :
    (0 < 1000 ∧ (0 : ℚ) ≤ 3/5 ∧ (3/5 : ℚ) ≤ 1 ∧
      (0 : ℚ) ≤ (1:ℚ)/10 ∧ (0 : ℚ) ≤ (2:ℚ)/10 ∧ (0 : ℚ) ≤ (2:ℚ)/10 ∧
      (0 : ℚ) ≤ (1:ℚ)/10 ∧ 0 < (OverlapPlan.mk (1/10) (2/10) (2/10) (1/10)).total) ∧
    (0 ≤ (planCounts 1000 (3/5) ⟨1/10, 2/10, 2/10, 1/10⟩).1 ∧
     0 ≤ (planCounts 1000 (3/5) ⟨1/10, 2/10, 2/10, 1/10⟩).2.1 ∧
     0 ≤ (planCounts 1000 (3/5) ⟨1/10, 2/10, 2/10, 1/10⟩).2.2.1 ∧
     0 ≤ (planCounts 1000 (3/5) ⟨1/10, 2/10, 2/10, 1/10⟩).2.2.2 ∧
     (planCounts 1000 (3/5) ⟨1/10, 2/10, 2/10, 1/10⟩).1 +
       (planCounts 1000 (3/5) ⟨1/10, 2/10, 2/10, 1/10⟩).2.1 +
       (planCounts 1000 (3/5) ⟨1/10, 2/10, 2/10, 1/10⟩).2.2.1 +
       (planCounts 1000 (3/5) ⟨1/10, 2/10, 2/10, 1/10⟩).2.2.2 =
         ⌊(1000 : ℚ) * (3/5)⌋ ∧
     (planCounts 1000 (3/5) ⟨1/10, 2/10, 2/10, 1/10⟩).2.2.2 =
       ⌊(1000 : ℚ) * (3/5)⌋ -
         ((planCounts 1000 (3/5) ⟨1/10, 2/10, 2/10, 1/10⟩).1 +
          (planCounts 1000 (3/5) ⟨1/10, 2/10, 2/10, 1/10⟩).2.1 +
          (planCounts 1000 (3/5) ⟨1/10, 2/10, 2/10, 1/10⟩).2.2.1)) :=
  ⟨⟨by norm_num, by norm_num, by norm_num, by norm_num, by norm_num, by norm_num,
      by norm_num, by norm_num [OverlapPlan.total]⟩,
    planCounts_partition 1000 (3/5) ⟨1/10, 2/10, 2/10, 1/10⟩
      (by norm_num) (by norm_num) (by norm_num) (by norm_num) (by norm_num)
      (by norm_num) (by norm_num) (by norm_num [OverlapPlan.total])⟩

/-- C10: normalizing an overlap plan is idempotent:
`p.normalized().normalized() = p.normalized()` for every plan, so the second
normalization inside `_apply_overlap_to_summit_batch` leaves the plan already
normalized by `generate_summit` unchanged. -/
theorem normalized_idempotent (p : OverlapPlan) :
    p.normalized.normalized = p.normalized := by
  by_cases h : p.total = 0
  · simp [OverlapPlan.normalized, h]
  · have hT : p.all_fields + p.three_fields + p.two_fields + p.one_field ≠ 0 := by
      simpa [OverlapPlan.total] using h
    have htot : p.normalized.total = summitOverlapRatio := by
      rw [total_ne_zero_normalized_fields h]
      show p.all_fields / p.total * summitOverlapRatio +
          p.three_fields / p.total * summitOverlapRatio +
          p.two_fields / p.total * summitOverlapRatio +
          p.one_field / p.total * summitOverlapRatio = summitOverlapRatio
      simp only [OverlapPlan.total] at hT ⊢
      field_simp
      ring
    have hR : summitOverlapRatio ≠ 0 := by norm_num [summitOverlapRatio]
    have htot' : p.normalized.total ≠ 0 := by rw [htot]; exact hR
    rw [total_ne_zero_normalized_fields htot', htot]
    have hcancel : ∀ x : ℚ, x / summitOverlapRatio * summitOverlapRatio = x :=
      fun x => div_mul_cancel₀ x hR
    simp [hcancel]

/-- C2 counterexample: at the spec's end-to-end example (batch 1000, ratio 3/5,
weights 1/10, 2/10, 2/10, 1/10) the code's planner yields counts
(60, 120, 120, 300), not the (100, 200, 200, 100) claimed; in particular the
all-fields count differs from `⌊r · B · w / Σw⌋ = 100`. -/
theorem planCounts_example_counterexample :
    planCounts 1000 (3/5) ⟨1/10, 2/10, 2/10, 1/10⟩ = (60, 120, 120, 300) ∧
    planCounts 1000 (3/5) ⟨1/10, 2/10, 2/10, 1/10⟩ ≠ (100, 200, 200, 100) ∧
    (planCounts 1000 (3/5) ⟨1/10, 2/10, 2/10, 1/10⟩).1 ≠
      ⌊(3/5 : ℚ) * 1000 * ((1/10) / (1/10 + 2/10 + 2/10 + 1/10))⌋ := by
  have h : planCounts 1000 (3/5) ⟨1/10, 2/10, 2/10, 1/10⟩ = (60, 120, 120, 300) := by
    norm_num [planCounts, OverlapPlan.normalized, OverlapPlan.total, targetOverlap,
      pyInt, summitOverlapRatio]
  refine ⟨h, by rw [h]; decide, by rw [h]; norm_num⟩

/-- C2 amended: each count except the lowest-priority one equals
`int(int(r·n) · (w_c / Σw) · summitOverlapRatio)` — the ratio enters twice,
once in `target_overlap` and once through `normalized` — and the spec's
example therefore yields counts (60, 120, 120, 300), still totalling 600. -/
theorem planCounts_formula (n : ℕ) (r : ℚ) (p : OverlapPlan)
    (hs : p.total ≠ 0) :
    (planCounts n r p).1 =
      pyInt (targetOverlap n r * (p.all_fields / p.total * summitOverlapRatio)) ∧
    (planCounts n r p).2.1 =
      pyInt (targetOverlap n r * (p.three_fields / p.total * summitOverlapRatio)) ∧
    (planCounts n r p).2.2.1 =
      pyInt (targetOverlap n r * (p.two_fields / p.total * summitOverlapRatio)) ∧
    planCounts 1000 (3/5) ⟨1/10, 2/10, 2/10, 1/10⟩ = (60, 120, 120, 300) ∧
    (60 : ℤ) + 120 + 120 + 300 = 600 := by
  have h : planCounts 1000 (3/5) ⟨1/10, 2/10, 2/10, 1/10⟩ = (60, 120, 120, 300) := by
    norm_num [planCounts, OverlapPlan.normalized, OverlapPlan.total, targetOverlap,
      pyInt, summitOverlapRatio]
  rw [planCounts_eq, total_ne_zero_normalized_fields hs]
  exact ⟨rfl, rfl, rfl, h, by norm_num⟩

/-- Witness for `planCounts_formula` at the default plan weights. -/
theorem planCounts_formula_witness :
    (OverlapPlan.mk (1/10) (2/10) (2/10) (1/10)).total ≠ 0 ∧
    ((planCounts 1000 (3/5) ⟨1/10, 2/10, 2/10, 1/10⟩).1 =
      pyInt (targetOverlap 1000 (3/5) *
        ((1/10) / (OverlapPlan.mk (1/10) (2/10) (2/10) (1/10)).total *
          summitOverlapRatio)) ∧
     (planCounts 1000 (3/5) ⟨1/10, 2/10, 2/10, 1/10⟩).2.1 =
      pyInt (targetOverlap 1000 (3/5) *
        ((2/10) / (OverlapPlan.mk (1/10) (2/10) (2/10) (1/10)).total *
          summitOverlapRatio)) ∧
     (planCounts 1000 (3/5) ⟨1/10, 2/10, 2/10, 1/10⟩).2.2.1 =
      pyInt (targetOverlap 1000 (3/5) *
        ((2/10) / (OverlapPlan.mk (1/10) (2/10) (2/10) (1/10)).total *
          summitOverlapRatio)) ∧
     planCounts 1000 (3/5) ⟨1/10, 2/10, 2/10, 1/10⟩ = (60, 120, 120, 300) ∧
     (60 : ℤ) + 120 + 120 + 300 = 600) :=
  ⟨by norm_num [OverlapPlan.total],
    planCounts_formula 1000 (3/5) ⟨1/10, 2/10, 2/10, 1/10⟩
      (by norm_num [OverlapPlan.total])⟩

/-- C4 counterexample: with all-zero weights, batch size 10 and ratio 1/2, the
planner's counts are (0, 0, 0, 5) — the one-field count equals the whole
overlap target 5, not 0 as claimed. -/
theorem planCounts_zero_weights_counterexample :
    planCounts 10 (1/2) ⟨0, 0, 0, 0⟩ = (0, 0, 0, 5) ∧
    (planCounts 10 (1/2) ⟨0, 0, 0, 0⟩).2.2.2 ≠ 0 := by
  have h : planCounts 10 (1/2) ⟨0, 0, 0, 0⟩ = (0, 0, 0, 5) := by
    norm_num [planCounts, OverlapPlan.normalized, OverlapPlan.total, targetOverlap,
      pyInt, summitOverlapRatio]
  exact ⟨h, by rw [h]; decide⟩

/-- C4 amended: if all category weights are zero, `normalized` returns the plan
unchanged and the counts are `(0, 0, 0, int(n·r))`: the all/three/two-field
counts are zero but the entire overlap target is assigned to the one-field
category; no error is raised (the computation is total). -/
theorem planCounts_zero_weights (n : ℕ) (r : ℚ) :
    planCounts n r ⟨0, 0, 0, 0⟩ = (0, 0, 0, targetOverlap n r) := by
  have h0 : (OverlapPlan.mk 0 0 0 0).total = 0 := by norm_num [OverlapPlan.total]
  rw [planCounts_eq]
  have hnorm : (OverlapPlan.mk 0 0 0 0).normalized = ⟨0, 0, 0, 0⟩ := by
    simp [OverlapPlan.normalized, h0]
  rw [hnorm]
  simp [pyInt_zero]

/-- The overlap-category assignment of `generate_crocevia_customers`
(crocevia_crm_generator.py, lines 154-165): the sequential if/elif chain,
with `triple`, `email`, `phone`, `name` standing for the four membership
tests `i in triple_indices`, `i in email_indices`, `i in phone_indices`,
`i in name_indices`. -/
def overlapTypeFor (triple email phone name : Bool) : String :=
  if triple then "TRIPLE"
  else if email && phone then "EMAIL_PHONE"
  else if email then "EMAIL"
  else if phone then "PHONE"
  else if name then "NAME"
  else "NONE"

/-- The closed set of categories `generate_crocevia_customers` can assign. -/
def croceviaCategorySet : List String :=
  ["TRIPLE", "EMAIL_PHONE", "EMAIL", "PHONE", "NAME", "NONE"]

/-- Modelled from the spec: the fixed deterministic priority order
triple > email+phone > email > phone > name > none, written as an explicit
priority match rather than an if/elif chain. -/
def priorityCategory : Bool → Bool → Bool → Bool → String
  | true, _, _, _ => "TRIPLE"
  | false, true, true, _ => "EMAIL_PHONE"
  | false, true, false, _ => "EMAIL"
  | false, false, true, _ => "PHONE"
  | false, false, false, true => "NAME"
  | false, false, false, false => "NONE"

/-- C3: for every combination of overlap conditions the generator assigns
exactly the category chosen by the fixed priority order
triple > email+phone > email > phone > name > none, and that category is one
value from the closed category set — so no record is claimed by two
categories. -/
theorem overlapTypeFor_priority (t e p n : Bool) :
    overlapTypeFor t e p n = priorityCategory t e p n ∧
    overlapTypeFor t e p n ∈ croceviaCategorySet := by
  cases t <;> cases e <;> cases p <;> cases n <;>
    simp [overlapTypeFor, priorityCategory, croceviaCategorySet]

/-- Identity Record: the flat row mapping built by `_build_base_batch`
(dual_crm_generator.py, lines 278-292) and `generate_crocevia_customers`
(crocevia_crm_generator.py, lines 237-252). Nullable columns are `Option`s;
date-like and numeric-string columns are kept as strings. -/
structure Record where
  customer_id : String := ""
  first_name : Option String := none
  last_name : Option String := none
  gender : Option String := none
  birth_date : Option String := none
  email : Option String := none
  phone : Option String := none
  street : Option String := none
  city : Option String := none
  postal_code : Option String := none
  latitude : Option ℚ := none
  longitude : Option ℚ := none
  registration_date : Option String := none
  marketing_opt_in : Option Bool := none
  source : String := ""
  overlap_type : String := "NONE"
deriving DecidableEq, Repr

instance : Inhabited Record := ⟨{}⟩

/-- The columns the Overlap Applicator may copy
(dual_crm_generator.py, lines 342-386). -/
inductive CrmField
  | FIRST_NAME | LAST_NAME | BIRTH_DATE | PHONE | EMAIL | STREET | POSTAL_CODE
deriving DecidableEq, Repr

def fieldName : CrmField → String
  | .FIRST_NAME => "FIRST_NAME"
  | .LAST_NAME => "LAST_NAME"
  | .BIRTH_DATE => "BIRTH_DATE"
  | .PHONE => "PHONE"
  | .EMAIL => "EMAIL"
  | .STREET => "STREET"
  | .POSTAL_CODE => "POSTAL_CODE"

def getField (r : Record) : CrmField → Option String
  | .FIRST_NAME => r.first_name
  | .LAST_NAME => r.last_name
  | .BIRTH_DATE => r.birth_date
  | .PHONE => r.phone
  | .EMAIL => r.email
  | .STREET => r.street
  | .POSTAL_CODE => r.postal_code

def setField (r : Record) : CrmField → Option String → Record
  | .FIRST_NAME, v => { r with first_name := v }
  | .LAST_NAME, v => { r with last_name := v }
  | .BIRTH_DATE, v => { r with birth_date := v }
  | .PHONE, v => { r with phone := v }
  | .EMAIL, v => { r with email := v }
  | .STREET, v => { r with street := v }
  | .POSTAL_CODE, v => { r with postal_code := v }

def insertSorted (s : String) : List String → List String
  | [] => [s]
  | t :: ts => if s ≤ t then s :: t :: ts else t :: insertSorted s ts

/-- Python's `sorted` on a list of strings (insertion sort). -/
def sortStrings : List String → List String
  | [] => []
  | s :: ss => insertSorted s (sortStrings ss)

/-- `copy_fields` (dual_crm_generator.py, lines 328-331): copy the named
fields from the pool record into the batch record and set `OVERLAP_TYPE` to
the sorted, `+`-joined field names (or `NONE` for an empty list). -/
def copyFields (dst src : Record) (fields : List CrmField) : Record :=
  let d := fields.foldl (fun d f => setField d f (getField src f)) dst
  { d with overlap_type :=
      if fields = [] then "NONE"
      else String.intercalate "+" (sortStrings (fields.map fieldName)) }

/-- The fixed all-fields combination (dual_crm_generator.py, lines 342-344). -/
def allFieldsCombo : List CrmField :=
  [.FIRST_NAME, .LAST_NAME, .BIRTH_DATE, .PHONE, .EMAIL, .STREET, .POSTAL_CODE]

/-- `triplets` (dual_crm_generator.py, lines 348-353). -/
def threeFieldCombos : List (List CrmField) :=
  [[.FIRST_NAME, .LAST_NAME, .BIRTH_DATE],
   [.FIRST_NAME, .LAST_NAME, .PHONE],
   [.FIRST_NAME, .BIRTH_DATE, .PHONE],
   [.LAST_NAME, .BIRTH_DATE, .PHONE]]

/-- `pairs` (dual_crm_generator.py, lines 363-370). -/
def twoFieldCombos : List (List CrmField) :=
  [[.FIRST_NAME, .LAST_NAME],
   [.FIRST_NAME, .BIRTH_DATE],
   [.FIRST_NAME, .PHONE],
   [.LAST_NAME, .BIRTH_DATE],
   [.LAST_NAME, .PHONE],
   [.BIRTH_DATE, .PHONE]]

/-- `singles` (dual_crm_generator.py, line 380). -/
def oneFieldCandidates : List CrmField :=
  [.FIRST_NAME, .LAST_NAME, .BIRTH_DATE, .PHONE, .EMAIL, .POSTAL_CODE]

/-- One category loop of `_apply_overlap_to_summit_batch`
(dual_crm_generator.py, lines 338-345, 354-360, 371-377, 381-387):
`for _ in range(count)`, break when `remaining_indices` is empty, otherwise
`idx = remaining_indices.pop()` (from the end), copy the chosen fields from
`src_sample.iloc[ptr]` into record `idx`, advance `ptr`.
State: `(batch, remaining_indices, ptr)`; `src i` models `src_sample.iloc[i]`
and `fieldsFor i` the field subset chosen at pointer `i`. -/
def applyCategory (src : ℕ → Record) (fieldsFor : ℕ → List CrmField) :
    ℕ → List Record × List ℕ × ℕ → List Record × List ℕ × ℕ
  | 0, st => st
  | k + 1, (batch, remaining, ptr) =>
    match remaining.getLast? with
    | none => (batch, remaining, ptr)
    | some idx =>
        applyCategory src fieldsFor k
          (batch.set idx (copyFields (batch.getD idx default) (src ptr) (fieldsFor ptr)),
           remaining.dropLast, ptr + 1)

/-- `_apply_overlap_to_summit_batch` (dual_crm_generator.py, lines 300-389).
Randomness is supplied as oracles: `perm` models `np.random.permutation(n)`,
`src i` models the `i`-th row of the with-replacement pool sample
`src_sample`, and `pick3`, `pick2`, `pick1` model the `random.choice` draws
from `triplets`, `pairs` and `singles`. -/
def applyOverlapToSummitBatch (summit pool : List Record) (overlap_ratio : ℚ)
    (plan : OverlapPlan) (perm : List ℕ) (src : ℕ → Record)
    (pick3 : ℕ → Fin 4) (pick2 : ℕ → Fin 6) (pick1 : ℕ → Fin 6) : List Record :=
  if summit.length = 0 ∨ pool.length = 0 then summit
  else
    let t := targetOverlap summit.length overlap_ratio
    if t ≤ 0 then summit
    else
      let c := planCounts summit.length overlap_ratio plan
      let remaining := perm.take t.toNat
      let s1 := applyCategory src (fun _ => allFieldsCombo) c.1.toNat
        (summit, remaining, 0)
      let s2 := applyCategory src (fun i => threeFieldCombos.getD (pick3 i).val [])
        c.2.1.toNat s1
      let s3 := applyCategory src (fun i => twoFieldCombos.getD (pick2 i).val [])
        c.2.2.1.toNat s2
      let s4 := applyCategory src (fun i => [oneFieldCandidates.getD (pick1 i).val .FIRST_NAME])
        c.2.2.2.toNat s3
      s4.1

theorem applyCategory_length (src : ℕ → Record) (f : ℕ → List CrmField) (k : ℕ) :
    ∀ st : List Record × List ℕ × ℕ,
      (applyCategory src f k st).1.length = st.1.length := by
  induction k with
  | zero => intro st; rfl
  | succ k ih =>
    rintro ⟨batch, remaining, ptr⟩
    rw [applyCategory]
    cases h : remaining.getLast? with
    | none => rfl
    | some idx => rw [ih]; simp

/-- A category pass never changes a record whose index is not in
`remaining_indices`, and only removes elements from `remaining_indices`. -/
theorem applyCategory_untouched (src : ℕ → Record) (f : ℕ → List CrmField)
    (k : ℕ) :
    ∀ (st : List Record × List ℕ × ℕ) (j : ℕ), j ∉ st.2.1 →
      (applyCategory src f k st).1[j]? = st.1[j]? ∧
      ∀ x ∈ (applyCategory src f k st).2.1, x ∈ st.2.1 := by
  induction k with
  | zero => intro st j _; exact ⟨rfl, fun x hx => hx⟩
  | succ k ih =>
    rintro ⟨batch, remaining, ptr⟩ j hj
    rw [applyCategory]
    cases h : remaining.getLast? with
    | none => exact ⟨rfl, fun x hx => hx⟩
    | some idx =>
      have hidx : idx ∈ remaining := by
        obtain ⟨hne, heq⟩ := List.mem_getLast?_eq_getLast (l := remaining) (x := idx)
          (by rw [h]; rfl)
        subst heq
        exact List.getLast_mem hne
      have hsubset : ∀ x ∈ remaining.dropLast, x ∈ remaining :=
        fun x hx => (List.dropLast_sublist remaining).subset hx
      have hj' : j ∉ remaining.dropLast := fun hx => hj (hsubset j hx)
      have hne : idx ≠ j := fun hid => hj (hid ▸ hidx)
      obtain ⟨h1, h2⟩ := ih
        (batch.set idx (copyFields (batch.getD idx default) (src ptr) (f ptr)),
          remaining.dropLast, ptr + 1) j hj'
      refine ⟨?_, fun x hx => hsubset x (h2 x hx)⟩
      rw [h1]
      exact List.getElem?_set_ne hne

/-- Chaining the four category passes: records at indices outside the initial
`remaining_indices` are left untouched. -/
theorem applyCategory_chain_untouched (src : ℕ → Record)
    (f1 f2 f3 f4 : ℕ → List CrmField) (k1 k2 k3 k4 : ℕ)
    (batch : List Record) (remaining : List ℕ) (j : ℕ) (hj : j ∉ remaining) :
    (applyCategory src f4 k4 (applyCategory src f3 k3 (applyCategory src f2 k2
      (applyCategory src f1 k1 (batch, remaining, 0))))).1[j]? = batch[j]? := by
  obtain ⟨e1, s1⟩ := applyCategory_untouched src f1 k1 (batch, remaining, 0) j hj
  have hj1 : j ∉ (applyCategory src f1 k1 (batch, remaining, 0)).2.1 :=
    fun hx => hj (s1 j hx)
  obtain ⟨e2, s2⟩ := applyCategory_untouched src f2 k2
    (applyCategory src f1 k1 (batch, remaining, 0)) j hj1
  have hj2 : j ∉ (applyCategory src f2 k2
      (applyCategory src f1 k1 (batch, remaining, 0))).2.1 :=
    fun hx => hj1 (s2 j hx)
  obtain ⟨e3, s3⟩ := applyCategory_untouched src f3 k3
    (applyCategory src f2 k2 (applyCategory src f1 k1 (batch, remaining, 0))) j hj2
  have hj3 : j ∉ (applyCategory src f3 k3 (applyCategory src f2 k2
      (applyCategory src f1 k1 (batch, remaining, 0)))).2.1 :=
    fun hx => hj2 (s3 j hx)
  obtain ⟨e4, _⟩ := applyCategory_untouched src f4 k4
    (applyCategory src f3 k3 (applyCategory src f2 k2
      (applyCategory src f1 k1 (batch, remaining, 0)))) j hj3
  exact e4.trans (e3.trans (e2.trans e1))

/-- C5: the Overlap Applicator selects its indices from a permutation of all
batch indices without replacement: the batch length is preserved, every index
outside the selected prefix `perm.take target_overlap` is returned with its
record (and hence its `OVERLAP_TYPE`) unchanged, and at most
`⌊r · n⌋` distinct records of the batch are modified. -/
theorem applyOverlap_touches_at_most (summit pool : List Record) (r : ℚ)
    (plan : OverlapPlan) (perm : List ℕ) (src : ℕ → Record)
    (pick3 : ℕ → Fin 4) (pick2 : ℕ → Fin 6) (pick1 : ℕ → Fin 6)
    (hperm : perm.Perm (List.range summit.length)) (hr : 0 ≤ r) :
    (applyOverlapToSummitBatch summit pool r plan perm src pick3 pick2 pick1).length
      = summit.length ∧
    (∀ j, j ∉ perm.take (targetOverlap summit.length r).toNat →
      (applyOverlapToSummitBatch summit pool r plan perm src pick3 pick2 pick1)[j]? =
        summit[j]?) ∧
    ((List.range summit.length).filter (fun j =>
        (applyOverlapToSummitBatch summit pool r plan perm src pick3 pick2 pick1)[j]? ≠
          summit[j]?)).length ≤ (⌊(summit.length : ℚ) * r⌋).toNat ∧
    (∀ j, j ∉ perm.take (targetOverlap summit.length r).toNat →
      ((applyOverlapToSummitBatch summit pool r plan perm src pick3 pick2 pick1)[j]?).map
          Record.overlap_type = (summit[j]?).map Record.overlap_type) := by
  set out := applyOverlapToSummitBatch summit pool r plan perm src pick3 pick2 pick1
    with hout
  have klen : out.length = summit.length := by
    rw [hout]
    simp only [applyOverlapToSummitBatch]
    split_ifs with h0 ht
    · rfl
    · rfl
    · rw [applyCategory_length, applyCategory_length, applyCategory_length,
        applyCategory_length]
  have key : ∀ j, j ∉ perm.take (targetOverlap summit.length r).toNat →
      out[j]? = summit[j]? := by
    intro j hj
    rw [hout]
    simp only [applyOverlapToSummitBatch]
    split_ifs with h0 ht
    · rfl
    · rfl
    · exact applyCategory_chain_untouched src _ _ _ _ _ _ _ _ summit _ j hj
  refine ⟨klen, key, ?_, fun j hj => by rw [key j hj]⟩
  have hmod : ∀ j ∈ (List.range summit.length).filter
      (fun j => decide (out[j]? ≠ summit[j]?)),
      j ∈ perm.take (targetOverlap summit.length r).toNat := by
    intro j hjf
    rw [List.mem_filter] at hjf
    by_contra hc
    exact (by simpa using hjf.2 : out[j]? ≠ summit[j]?) (key j hc)
  have hnd : ((List.range summit.length).filter
      (fun j => decide (out[j]? ≠ summit[j]?))).Nodup :=
    List.Nodup.filter _ (List.nodup_range summit.length)
  have hle := (List.subperm_of_subset hnd hmod).length_le
  have htake : (perm.take (targetOverlap summit.length r).toNat).length ≤
      (targetOverlap summit.length r).toNat := by
    simp [List.length_take]
  have hteq : (targetOverlap summit.length r).toNat =
      (⌊(summit.length : ℚ) * r⌋).toNat := by
    rw [targetOverlap, pyInt_of_nonneg (mul_nonneg (by positivity) hr)]
  calc ((List.range summit.length).filter
      (fun j => decide (out[j]? ≠ summit[j]?))).length
      ≤ (perm.take (targetOverlap summit.length r).toNat).length := hle
    _ ≤ (targetOverlap summit.length r).toNat := htake
    _ = (⌊(summit.length : ℚ) * r⌋).toNat := hteq

def witnessRecordA : Record :=
  { customer_id := "SUM-0000000000", email := some "a@x.fr", source := "Summit Sports" }

def witnessRecordB : Record :=
  { customer_id := "SUM-0000000001", email := some "b@x.fr", source := "Summit Sports" }

def witnessPoolRecord : Record :=
  { customer_id := "CRO-0000000000", email := some "p@q.fr", source := "Crocevia" }

def wSummit : List Record := [witnessRecordA, witnessRecordB]

def wPool : List Record := [witnessPoolRecord]

def wOut : List Record :=
  applyOverlapToSummitBatch wSummit wPool (1/2) ⟨1/10, 2/10, 2/10, 1/10⟩ [0, 1]
    (fun _ => witnessPoolRecord) (fun _ => 0) (fun _ => 0) (fun _ => 0)

/-- Witness for `applyOverlap_touches_at_most` on a concrete two-record batch
with a one-record pool, ratio 1/2 and the identity permutation. -/
theorem applyOverlap_touches_at_most_witness :
    (([0, 1] : List ℕ).Perm (List.range wSummit.length) ∧ (0 : ℚ) ≤ 1/2) ∧
    (wOut.length = wSummit.length ∧
     (∀ j, j ∉ ([0, 1] : List ℕ).take (targetOverlap wSummit.length (1/2)).toNat →
       wOut[j]? = wSummit[j]?) ∧
     ((List.range wSummit.length).filter
        (fun j => wOut[j]? ≠ wSummit[j]?)).length ≤
          (⌊(wSummit.length : ℚ) * (1/2)⌋).toNat ∧
     (∀ j, j ∉ ([0, 1] : List ℕ).take (targetOverlap wSummit.length (1/2)).toNat →
       (wOut[j]?).map Record.overlap_type = (wSummit[j]?).map Record.overlap_type)) :=
  ⟨⟨by decide, by norm_num⟩,
    applyOverlap_touches_at_most wSummit wPool (1/2) ⟨1/10, 2/10, 2/10, 1/10⟩ [0, 1]
      (fun _ => witnessPoolRecord) (fun _ => 0) (fun _ => 0) (fun _ => 0)
      (by decide) (by norm_num)⟩

/-- C6: with an empty reference pool the Overlap Applicator is a no-op: it
returns the batch unchanged, whatever the ratio, plan and random draws, and
raises no error (the function is total). -/
theorem applyOverlap_empty_pool (summit : List Record) (r : ℚ)
    (plan : OverlapPlan) (perm : List ℕ) (src : ℕ → Record)
    (pick3 : ℕ → Fin 4) (pick2 : ℕ → Fin 6) (pick1 : ℕ → Fin 6) :
    applyOverlapToSummitBatch summit [] r plan perm src pick3 pick2 pick1 = summit := by
  simp [applyOverlapToSummitBatch]

/-- Email perturbation of `add_duplicate_customers` (crocevia_crm_generator.py,
lines 284-288): when the coin fired (`t = some d`) and the email is truthy,
split on `@`; if exactly two parts, insert the digit before the `@`. -/
def croceviaTweakEmail (e : Option String) (t : Option (Fin 10)) : Option String :=
  match e, t with
  | some s, some d =>
      if s ≠ "" then
        match s.splitOn "@" with
        | [l, dom] => some (l ++ toString d.val ++ "@" ++ dom)
        | _ => some s
      else some s
  | e, _ => e

/-- Phone perturbation of `add_duplicate_customers` (crocevia_crm_generator.py,
lines 290-294): replace the last character by the drawn digit. -/
def croceviaTweakPhone (p : Option String) (t : Option (Fin 10)) : Option String :=
  match p, t with
  | some s, some d =>
      if s ≠ "" then some (s.dropRight 1 ++ toString d.val) else some s
  | p, _ => p

/-- One duplicate row of `add_duplicate_customers` (crocevia_crm_generator.py,
lines 276-296): copy the source row, append `_DUP` (no digit) to the customer
id, force `OVERLAP_TYPE = DUPLICATE`, optionally perturb email and phone. -/
def croceviaDuplicateOf (src : Record) (eT pT : Option (Fin 10)) : Record :=
  { src with
      customer_id := src.customer_id ++ "_DUP"
      overlap_type := "DUPLICATE"
      email := croceviaTweakEmail src.email eT
      phone := croceviaTweakPhone src.phone pT }

/-- `add_duplicate_customers` (crocevia_crm_generator.py, lines 257-300).
`srcIdxs` models `np.random.choice(len(df), size=duplicate_count,
replace=False)` and `tw j` the per-duplicate email/phone draws; the perturbed
copies are appended to the original batch (`pd.concat`). -/
def add_duplicate_customers (df : List Record) (srcIdxs : List ℕ)
    (tw : ℕ → Option (Fin 10) × Option (Fin 10)) : List Record :=
  if srcIdxs = [] then df
  else
    df ++ srcIdxs.enum.map (fun ji =>
      croceviaDuplicateOf (df.getD ji.2 default) (tw ji.1).1 (tw ji.1).2)

/-- `[c for c in phone if c.isdigit()]` (dual_crm_generator.py, line 188). -/
def phoneDigits (s : String) : List Char := s.toList.filter Char.isDigit

/-- `digits[-1] = str(random.randint(0, 9))` (dual_crm_generator.py,
line 190): replace the last digit of the list. -/
def setLastDigit (ds : List Char) (d : Fin 10) : List Char :=
  match ds with
  | [] => []
  | _ => ds.dropLast ++ [Nat.digitChar d.val]

/-- The `0X XX XX XX XX` regrouping of the first ten digits
(dual_crm_generator.py, line 193); `none` models the caught `IndexError`
when fewer than ten digits are available. -/
def formatFrenchPhone (ds : List Char) : Option String :=
  match ds with
  | d0 :: d1 :: d2 :: d3 :: d4 :: d5 :: d6 :: d7 :: d8 :: d9 :: _ =>
      some (String.mk [d0, d1] ++ " " ++ String.mk [d2, d3] ++ " " ++
        String.mk [d4, d5] ++ " " ++ String.mk [d6, d7] ++ " " ++
        String.mk [d8, d9])
  | _ => none

/-- Email perturbation of `_add_duplicate_profiles` (dual_crm_generator.py,
lines 180-184): applied when the value is not NA and the coin fired. -/
def dualTweakEmail (e : Option String) (t : Option (Fin 10)) : Option String :=
  match e, t with
  | some s, some d =>
      match s.splitOn "@" with
      | [l, dom] => some (l ++ toString d.val ++ "@" ++ dom)
      | _ => some s
  | e, _ => e

/-- Phone perturbation of `_add_duplicate_profiles` (dual_crm_generator.py,
lines 186-196): tweak the last digit and reformat; on failure (fewer than ten
digits) the phone is left unperturbed. -/
def dualTweakPhone (p : Option String) (t : Option (Fin 10)) : Option String :=
  match p, t with
  | some s, some d =>
      let ds := phoneDigits s
      if ds = [] then some s
      else
        match formatFrenchPhone (setLastDigit ds d) with
        | some s2 => some s2
        | none => some s
  | p, _ => p

/-- One duplicate row of `_add_duplicate_profiles` (dual_crm_generator.py,
lines 176-205): perturb email/phone, maybe blank postal code and street, and
give the copy the id `original + "_DUP" + digit` with a digit drawn by
`np.random.randint(0, 9)` (so 0..8). `OVERLAP_TYPE` is NOT modified. -/
def dualDuplicateOf (src : Record) (eT pT : Option (Fin 10))
    (postalBlank streetBlank : Bool) (idDigit : Fin 9) : Record :=
  { src with
      email := dualTweakEmail src.email eT
      phone := dualTweakPhone src.phone pT
      postal_code := if postalBlank then none else src.postal_code
      street := if streetBlank then none else src.street
      customer_id := src.customer_id ++ "_DUP" ++ toString idDigit.val }

/-- `_add_duplicate_profiles` (dual_crm_generator.py, lines 170-206).
`srcIdxs` models `np.random.choice(len(df), size=count, replace=False)`;
`tw2 j` bundles the per-duplicate draws (email digit, phone digit, postal
blanking, street blanking, id digit). -/
def addDuplicateProfiles (df : List Record) (ratio : ℚ) (srcIdxs : List ℕ)
    (tw2 : ℕ → Option (Fin 10) × Option (Fin 10) × Bool × Bool × Fin 9) :
    List Record :=
  if pyInt (df.length * ratio) ≤ 0 then df
  else
    df ++ srcIdxs.enum.map (fun ji =>
      dualDuplicateOf (df.getD ji.2 default) (tw2 ji.1).1 (tw2 ji.1).2.1
        (tw2 ji.1).2.2.1 (tw2 ji.1).2.2.2.1 (tw2 ji.1).2.2.2.2)

def dupInputRecord : Record :=
  { customer_id := "CRV-0000000001", email := some "x@y.fr",
    phone := some "06 11 22 33 44", source := "Crocevia" }

/-- C7 counterexample: the Crocevia injector gives the duplicate of
`CRV-0000000001` the identifier `CRV-0000000001_DUP` — `_DUP` with NO digit,
unequal to `original + "_DUP" + d` for every digit `d`; and the dual-CRM
injector leaves the duplicate's `OVERLAP_TYPE` at `NONE` instead of forcing
`DUPLICATE`. -/
theorem duplicate_injection_counterexample :
    ((add_duplicate_customers [dupInputRecord] [0]
        (fun _ => (none, none))).getD 1 default).customer_id =
      "CRV-0000000001_DUP" ∧
    (∀ d : Fin 10,
      ((add_duplicate_customers [dupInputRecord] [0]
          (fun _ => (none, none))).getD 1 default).customer_id ≠
        dupInputRecord.customer_id ++ "_DUP" ++ toString d.val) ∧
    ((addDuplicateProfiles [dupInputRecord] 1 [0]
        (fun _ => (none, none, false, false, 0))).getD 1 default).overlap_type =
      "NONE" ∧
    ("NONE" : String) ≠ "DUPLICATE" := by
  have hbranch : addDuplicateProfiles [dupInputRecord] 1 [0]
      (fun _ => (none, none, false, false, 0)) =
      [dupInputRecord] ++ [(0, 0)].map (fun ji =>
        dualDuplicateOf ([dupInputRecord].getD ji.2 default) none none
          false false 0) := by
    rw [addDuplicateProfiles, if_neg]
    · rfl
    · norm_num [pyInt]
  refine ⟨by decide, by decide, ?_, by decide⟩
  rw [hbranch]
  rfl

/-- C7 amended: both injectors select `int(len(df) * ratio)` distinct original
records without replacement and append one perturbed copy of each, leaving
the originals in place. In the Crocevia injector each copy's identifier is
the original identifier + `_DUP` (no digit) and its category is forced to
`DUPLICATE`; in the dual-CRM injector each copy's identifier is the original
identifier + `_DUP` + one digit, but the overlap category is left unchanged
(never `DUPLICATE` when no original carries it). -/
theorem duplicate_injection_amended (df : List Record) (pct : ℚ)
    (srcIdxs : List ℕ) (tw : ℕ → Option (Fin 10) × Option (Fin 10))
    (tw2 : ℕ → Option (Fin 10) × Option (Fin 10) × Bool × Bool × Fin 9)
    (hnd : srcIdxs.Nodup) (hlt : ∀ i ∈ srcIdxs, i < df.length)
    (hlen : (srcIdxs.length : ℤ) = pyInt ((df.length : ℚ) * pct))
    (hdf : ∀ r ∈ df, r.overlap_type ≠ "DUPLICATE") :
    (add_duplicate_customers df srcIdxs tw).take df.length = df ∧
    (add_duplicate_customers df srcIdxs tw).length = df.length + srcIdxs.length ∧
    ((add_duplicate_customers df srcIdxs tw).filter
        (fun r => r.overlap_type = "DUPLICATE")).length =
      (pyInt ((df.length : ℚ) * pct)).toNat ∧
    (∀ rec ∈ (add_duplicate_customers df srcIdxs tw).drop df.length,
      rec.overlap_type = "DUPLICATE" ∧
      ∃ orig ∈ df, rec.customer_id = orig.customer_id ++ "_DUP") ∧
    (addDuplicateProfiles df pct srcIdxs tw2).take df.length = df ∧
    (∀ rec ∈ (addDuplicateProfiles df pct srcIdxs tw2).drop df.length,
      rec.overlap_type ≠ "DUPLICATE" ∧
      ∃ orig ∈ df, ∃ d : Fin 9,
        rec.customer_id = orig.customer_id ++ "_DUP" ++ toString d.val) := by
  by_cases hemp : srcIdxs = []
  · subst hemp
    have hz : pyInt ((df.length : ℚ) * pct) = 0 := by
      simpa using hlen.symm
    have hcro : add_duplicate_customers df [] tw = df := by
      simp [add_duplicate_customers]
    have hdual : addDuplicateProfiles df pct [] tw2 = df := by
      rw [addDuplicateProfiles, if_pos (by rw [hz])]
    refine ⟨?_, ?_, ?_, ?_, ?_, ?_⟩
    · rw [hcro]; exact List.take_length df
    · rw [hcro]; simp
    · rw [hcro, hz, List.filter_eq_nil_iff.mpr]
      · rfl
      · intro r hr
        simpa using hdf r hr
    · rw [hcro, List.drop_length]
      intro rec hrec
      exact absurd hrec (List.not_mem_nil rec)
    · rw [hdual]; exact List.take_length df
    · rw [hdual, List.drop_length]
      intro rec hrec
      exact absurd hrec (List.not_mem_nil rec)
  · have hpos : 0 < srcIdxs.length := List.length_pos.mpr hemp
    have hpy : ¬ pyInt ((df.length : ℚ) * pct) ≤ 0 := by
      rw [← hlen]
      exact_mod_cast Nat.not_le.mpr (by exact_mod_cast hpos)
    have hcro : add_duplicate_customers df srcIdxs tw =
        df ++ srcIdxs.enum.map (fun ji =>
          croceviaDuplicateOf (df.getD ji.2 default) (tw ji.1).1 (tw ji.1).2) := by
      rw [add_duplicate_customers, if_neg hemp]
    have hdual : addDuplicateProfiles df pct srcIdxs tw2 =
        df ++ srcIdxs.enum.map (fun ji =>
          dualDuplicateOf (df.getD ji.2 default) (tw2 ji.1).1 (tw2 ji.1).2.1
            (tw2 ji.1).2.2.1 (tw2 ji.1).2.2.2.1 (tw2 ji.1).2.2.2.2) := by
      rw [addDuplicateProfiles, if_neg hpy]
    have horig : ∀ ji ∈ srcIdxs.enum, df.getD ji.2 default ∈ df := by
      intro ji hji
      have hmem : ji.2 ∈ srcIdxs := by
        rw [← List.enum_map_snd srcIdxs]
        exact List.mem_map_of_mem Prod.snd hji
      have hb := hlt ji.2 hmem
      rw [List.getD_eq_getElem df default hb]
      exact List.getElem_mem hb
    refine ⟨?_, ?_, ?_, ?_, ?_, ?_⟩
    · rw [hcro]; exact List.take_left df _
    · rw [hcro]; simp
    · rw [hcro, List.filter_append, List.filter_eq_nil_iff.mpr, List.nil_append,
        List.filter_eq_self.mpr]
      · simp only [List.length_map, List.enum_length]
        omega
      · intro r hr
        obtain ⟨ji, _, rfl⟩ := List.mem_map.mp hr
        simp [croceviaDuplicateOf]
      · intro r hr
        simpa using hdf r hr
    · rw [hcro, List.drop_left]
      intro rec hrec
      obtain ⟨ji, hji, rfl⟩ := List.mem_map.mp hrec
      exact ⟨rfl, df.getD ji.2 default, horig ji hji, rfl⟩
    · rw [hdual]; exact List.take_left df _
    · rw [hdual, List.drop_left]
      intro rec hrec
      obtain ⟨ji, hji, rfl⟩ := List.mem_map.mp hrec
      refine ⟨?_, df.getD ji.2 default, horig ji hji, (tw2 ji.1).2.2.2.2, rfl⟩
      show (df.getD ji.2 default).overlap_type ≠ "DUPLICATE"
      exact hdf _ (horig ji hji)

/-- Witness for `duplicate_injection_amended` on a one-record batch with
ratio 1 and all perturbation coins off. -/
theorem duplicate_injection_amended_witness :
    (([0] : List ℕ).Nodup ∧
     (∀ i ∈ ([0] : List ℕ), i < ([dupInputRecord] : List Record).length) ∧
     ((([0] : List ℕ).length : ℤ) =
       pyInt ((([dupInputRecord] : List Record).length : ℚ) * 1)) ∧
     (∀ r ∈ ([dupInputRecord] : List Record), r.overlap_type ≠ "DUPLICATE")) ∧
    ((add_duplicate_customers [dupInputRecord] [0] (fun _ => (none, none))).take
        ([dupInputRecord] : List Record).length = [dupInputRecord] ∧
     (add_duplicate_customers [dupInputRecord] [0] (fun _ => (none, none))).length =
       ([dupInputRecord] : List Record).length + ([0] : List ℕ).length ∧
     ((add_duplicate_customers [dupInputRecord] [0] (fun _ => (none, none))).filter
         (fun r => r.overlap_type = "DUPLICATE")).length =
       (pyInt ((([dupInputRecord] : List Record).length : ℚ) * 1)).toNat ∧
     (∀ rec ∈ (add_duplicate_customers [dupInputRecord] [0]
         (fun _ => (none, none))).drop ([dupInputRecord] : List Record).length,
       rec.overlap_type = "DUPLICATE" ∧
       ∃ orig ∈ ([dupInputRecord] : List Record),
         rec.customer_id = orig.customer_id ++ "_DUP") ∧
     (addDuplicateProfiles [dupInputRecord] 1 [0]
         (fun _ => (none, none, false, false, 0))).take
       ([dupInputRecord] : List Record).length = [dupInputRecord] ∧
     (∀ rec ∈ (addDuplicateProfiles [dupInputRecord] 1 [0]
         (fun _ => (none, none, false, false, 0))).drop
           ([dupInputRecord] : List Record).length,
       rec.overlap_type ≠ "DUPLICATE" ∧
       ∃ orig ∈ ([dupInputRecord] : List Record), ∃ d : Fin 9,
         rec.customer_id = orig.customer_id ++ "_DUP" ++ toString d.val)) :=
  ⟨⟨by decide, by decide, by norm_num [pyInt], by decide⟩,
    duplicate_injection_amended [dupInputRecord] 1 [0] (fun _ => (none, none))
      (fun _ => (none, none, false, false, 0))
      (by decide) (by decide) (by norm_num [pyInt]) (by decide)⟩

/-- A person row from the `FRENCH_PEOPLE` provider
(dual_crm_generator.py, lines 211-224). -/
structure Person where
  first_name : String := ""
  last_name : String := ""
  gender : String := ""
  birth_date : Option String := none
deriving DecidableEq, Repr

instance : Inhabited Person := ⟨{}⟩

/-- An address row after `load_addresses` / the padding of `_build_base_batch`
(dual_crm_generator.py, lines 227-246 and 260-266). -/
structure Address where
  street : Option String := none
  city : Option String := none
  postal_code : Option String := none
  latitude : Option ℚ := none
  longitude : Option ℚ := none
deriving DecidableEq, Repr

instance : Inhabited Address := ⟨{}⟩

/-- `f"{source_name[:3].upper()}-{start_index + i:010d}"`: the zero-padded
part (dual_crm_generator.py, line 279). -/
def zeroPad10 (n : ℕ) : String :=
  let s := Nat.repr n
  String.mk (List.replicate (10 - s.length) '0') ++ s

/-- `source_name[:3].upper()`: first three characters, uppercased. -/
def sourcePrefix (s : String) : String :=
  String.mk (s.toList.take 3 |>.map Char.toUpper)

/-- One row of the base batch (dual_crm_generator.py, lines 278-292). -/
def buildRow (source_name : String) (start_index i : ℕ) (p : Person)
    (addr : Address) (email phone : String) : Record :=
  { customer_id := sourcePrefix source_name ++ "-" ++ zeroPad10 (start_index + i)
    first_name := some p.first_name
    last_name := some p.last_name
    gender := some p.gender
    birth_date := p.birth_date
    email := some email
    phone := some phone
    street := addr.street
    postal_code := addr.postal_code
    latitude := addr.latitude
    longitude := addr.longitude
    source := source_name
    overlap_type := "NONE" }

/-- The row-assembly loop of `_build_base_batch` (dual_crm_generator.py,
lines 275-294). `addrs` models the already sampled-and-padded
`addr_records`; when `i` is out of its range the all-`None` address dict of
line 277 applies, which is exactly `(default : Address)`. `emails` and
`phones` model the `_generate_emails` / `_generate_french_phones` outputs. -/
def assembleRows (source_name : String) (start_index : ℕ) (people : List Person)
    (addrs : List Address) (emails phones : List String) : List Record :=
  (List.range people.length).map (fun i =>
    buildRow source_name start_index i (people.getD i default)
      (addrs.getD i default) (emails.getD i "") (phones.getD i ""))

/-- `_inject_missingness` (dual_crm_generator.py, lines 148-167): the four
per-column Bernoulli masks, modelled by the oracles `me`, `mp`, `mpo`, `mb`
(mask value for row `i`). -/
def injectMissingness (df : List Record) (me mp mpo mb : ℕ → Bool) :
    List Record :=
  df.mapIdx (fun i r =>
    { r with
        email := if me i then none else r.email
        phone := if mp i then none else r.phone
        postal_code := if mpo i then none else r.postal_code
        birth_date := if mb i then none else r.birth_date })

/-- `_build_base_batch` (dual_crm_generator.py, lines 251-297): assemble the
rows, then inject missingness, then append duplicate profiles at
`duplicateProfileRatio`. -/
def buildBaseBatch (source_name : String) (start_index : ℕ)
    (people : List Person) (addrs : List Address) (emails phones : List String)
    (me mp mpo mb : ℕ → Bool) (dupIdxs : List ℕ)
    (tw2 : ℕ → Option (Fin 10) × Option (Fin 10) × Bool × Bool × Fin 9) :
    List Record :=
  addDuplicateProfiles
    (injectMissingness (assembleRows source_name start_index people addrs emails phones)
      me mp mpo mb)
    duplicateProfileRatio dupIdxs tw2

/-- One batch iteration of `generate_summit` (dual_crm_generator.py,
lines 433-451): build the base batch (which already injected missingness and
appended duplicates), then apply the overlap to it. -/
def summitBatchPipeline (start_index : ℕ) (people : List Person)
    (addrs : List Address) (emails phones : List String)
    (me mp mpo mb : ℕ → Bool) (dupIdxs : List ℕ)
    (tw2 : ℕ → Option (Fin 10) × Option (Fin 10) × Bool × Bool × Fin 9)
    (pool : List Record) (plan : OverlapPlan) (perm : List ℕ)
    (src : ℕ → Record) (pick3 : ℕ → Fin 4) (pick2 : ℕ → Fin 6)
    (pick1 : ℕ → Fin 6) : List Record :=
  applyOverlapToSummitBatch
    (buildBaseBatch "Summit Sports" start_index people addrs emails phones
      me mp mpo mb dupIdxs tw2)
    pool summitOverlapRatio plan perm src pick3 pick2 pick1

/-- Modelled from the spec: the claimed batch-pass order — synthesize the
base batch, then apply the overlap, and only then inject missingness and
append duplicates. -/
def specOrderSummitBatch (start_index : ℕ) (people : List Person)
    (addrs : List Address) (emails phones : List String)
    (me mp mpo mb : ℕ → Bool) (dupIdxs : List ℕ)
    (tw2 : ℕ → Option (Fin 10) × Option (Fin 10) × Bool × Bool × Fin 9)
    (pool : List Record) (plan : OverlapPlan) (perm : List ℕ)
    (src : ℕ → Record) (pick3 : ℕ → Fin 4) (pick2 : ℕ → Fin 6)
    (pick1 : ℕ → Fin 6) : List Record :=
  addDuplicateProfiles
    (injectMissingness
      (applyOverlapToSummitBatch
        (assembleRows "Summit Sports" start_index people addrs emails phones)
        pool summitOverlapRatio plan perm src pick3 pick2 pick1)
      me mp mpo mb)
    duplicateProfileRatio dupIdxs tw2

/-- Unfolding of the Overlap Applicator in the case where neither early
return fires. -/
theorem applyOverlap_unfold (summit pool : List Record) (r : ℚ)
    (plan : OverlapPlan) (perm : List ℕ) (src : ℕ → Record)
    (pick3 : ℕ → Fin 4) (pick2 pick1 : ℕ → Fin 6)
    (h0 : ¬(summit.length = 0 ∨ pool.length = 0))
    (ht : ¬ targetOverlap summit.length r ≤ 0) :
    applyOverlapToSummitBatch summit pool r plan perm src pick3 pick2 pick1 =
      (applyCategory src (fun i => [oneFieldCandidates.getD (pick1 i).val .FIRST_NAME])
        (planCounts summit.length r plan).2.2.2.toNat
        (applyCategory src (fun i => twoFieldCombos.getD (pick2 i).val [])
          (planCounts summit.length r plan).2.2.1.toNat
          (applyCategory src (fun i => threeFieldCombos.getD (pick3 i).val [])
            (planCounts summit.length r plan).2.1.toNat
            (applyCategory src (fun _ => allFieldsCombo)
              (planCounts summit.length r plan).1.toNat
              (summit, perm.take (targetOverlap summit.length r).toNat, 0))))).1 := by
  simp only [applyOverlapToSummitBatch, if_neg h0, if_neg ht]

def wPersonA : Person :=
  { first_name := "Al", last_name := "Ba", gender := "F",
    birth_date := some "1990-01-01" }

def wPersonB : Person :=
  { first_name := "Cy", last_name := "Do", gender := "M" }

def wPeople : List Person := [wPersonA, wPersonB]

def wEmails : List String := ["a@x.fr", "b@x.fr"]

def wPhones : List String := ["06 00 00 00 01", "06 00 00 00 02"]

def c8Pool : Record :=
  { customer_id := "CRO-0000000042", first_name := some "Zo",
    last_name := some "Ye", email := some "p@q.fr",
    phone := some "07 11 22 33 44", source := "Crocevia" }

def c8Tw2 : ℕ → Option (Fin 10) × Option (Fin 10) × Bool × Bool × Fin 9 :=
  fun _ => (none, none, false, false, 0)

/-- The per-batch pipeline of `generate_summit` at a concrete two-person
input where the email mask nulls row 0 and the overlap plan selects row 0
for a one-field EMAIL copy. -/
def c8CodeOut : List Record :=
  summitBatchPipeline 0 wPeople [] wEmails wPhones (fun i => i == 0)
    (fun _ => false) (fun _ => false) (fun _ => false) [] c8Tw2 [c8Pool]
    ⟨1/10, 2/10, 2/10, 1/10⟩ [0, 1] (fun _ => c8Pool) (fun _ => 0)
    (fun _ => 0) (fun _ => 4)

/-- The spec-claimed order (overlap before missingness/duplication) at the
same concrete input. -/
def c8SpecOut : List Record :=
  specOrderSummitBatch 0 wPeople [] wEmails wPhones (fun i => i == 0)
    (fun _ => false) (fun _ => false) (fun _ => false) [] c8Tw2 [c8Pool]
    ⟨1/10, 2/10, 2/10, 1/10⟩ [0, 1] (fun _ => c8Pool) (fun _ => 0)
    (fun _ => 0) (fun _ => 4)

def c8Row0 : Record :=
  { customer_id := "SUM-0000000000", first_name := some "Al",
    last_name := some "Ba", gender := some "F",
    birth_date := some "1990-01-01", email := some "a@x.fr",
    phone := some "06 00 00 00 01", source := "Summit Sports" }

def c8Row1 : Record :=
  { customer_id := "SUM-0000000001", first_name := some "Cy",
    last_name := some "Do", gender := some "M", email := some "b@x.fr",
    phone := some "06 00 00 00 02", source := "Summit Sports" }

def c8Row0Missed : Record := { c8Row0 with email := none }

def c8Row0Done : Record :=
  { c8Row0 with email := some "p@q.fr", overlap_type := "EMAIL" }

def c8Row0SpecFinal : Record :=
  { c8Row0 with email := none, overlap_type := "EMAIL" }

/-- C8 counterexample: at a concrete input, the code's pipeline (missingness
and duplication inside `_build_base_batch`, *before* the overlap) yields
record 0 with the pool's email, while the spec-claimed order (overlap before
missingness) yields a null email — the two pipelines differ, so the claimed
step order is not the code's. -/
theorem summit_order_counterexample :
    (c8CodeOut.getD 0 default).email = some "p@q.fr" ∧
    (c8SpecOut.getD 0 default).email = none ∧
    c8CodeOut ≠ c8SpecOut := by
  have hassemble : assembleRows "Summit Sports" 0 wPeople [] wEmails wPhones =
      [c8Row0, c8Row1] := by decide
  have hmiss : injectMissingness [c8Row0, c8Row1] (fun i => i == 0)
      (fun _ => false) (fun _ => false) (fun _ => false) =
      [c8Row0Missed, c8Row1] := by decide
  have hdup : ∀ df : List Record, df.length = 2 →
      addDuplicateProfiles df duplicateProfileRatio [] c8Tw2 = df := by
    intro df hdf
    rw [addDuplicateProfiles, if_pos]
    rw [hdf]
    norm_num [pyInt, duplicateProfileRatio]
  have htarget : targetOverlap 2 summitOverlapRatio = 1 := by
    norm_num [targetOverlap, pyInt, summitOverlapRatio]
  have hcounts : planCounts 2 summitOverlapRatio ⟨1/10, 2/10, 2/10, 1/10⟩ =
      (0, 0, 0, 1) := by
    norm_num [planCounts, OverlapPlan.normalized, OverlapPlan.total,
      targetOverlap, pyInt, summitOverlapRatio]
  have happly : ∀ a b : Record,
      applyOverlapToSummitBatch [a, b] [c8Pool] summitOverlapRatio
        ⟨1/10, 2/10, 2/10, 1/10⟩ [0, 1] (fun _ => c8Pool) (fun _ => 0)
        (fun _ => 0) (fun _ => 4) = [copyFields a c8Pool [.EMAIL], b] := by
    intro a b
    have hl : ([a, b] : List Record).length = 2 := rfl
    have h0 : ¬(([a, b] : List Record).length = 0 ∨
        ([c8Pool] : List Record).length = 0) := by simp
    have ht : ¬ targetOverlap ([a, b] : List Record).length
        summitOverlapRatio ≤ 0 := by
      rw [hl, htarget]; norm_num
    rw [applyOverlap_unfold _ _ _ _ _ _ _ _ _ h0 ht, hl, htarget, hcounts]
    rfl
  have hbase : buildBaseBatch "Summit Sports" 0 wPeople [] wEmails wPhones
      (fun i => i == 0) (fun _ => false) (fun _ => false) (fun _ => false)
      [] c8Tw2 = [c8Row0Missed, c8Row1] := by
    rw [buildBaseBatch, hassemble, hmiss]
    exact hdup _ rfl
  have hcf : copyFields c8Row0Missed c8Pool [.EMAIL] = c8Row0Done := by decide
  have hcf2 : copyFields c8Row0 c8Pool [.EMAIL] = c8Row0Done := by decide
  have h1 : c8CodeOut = [c8Row0Done, c8Row1] := by
    show summitBatchPipeline 0 wPeople [] wEmails wPhones (fun i => i == 0)
      (fun _ => false) (fun _ => false) (fun _ => false) [] c8Tw2 [c8Pool]
      ⟨1/10, 2/10, 2/10, 1/10⟩ [0, 1] (fun _ => c8Pool) (fun _ => 0)
      (fun _ => 0) (fun _ => 4) = [c8Row0Done, c8Row1]
    rw [summitBatchPipeline, hbase, happly, hcf]
  have hmiss2 : injectMissingness [c8Row0Done, c8Row1] (fun i => i == 0)
      (fun _ => false) (fun _ => false) (fun _ => false) =
      [c8Row0SpecFinal, c8Row1] := by decide
  have h2 : c8SpecOut = [c8Row0SpecFinal, c8Row1] := by
    show specOrderSummitBatch 0 wPeople [] wEmails wPhones (fun i => i == 0)
      (fun _ => false) (fun _ => false) (fun _ => false) [] c8Tw2 [c8Pool]
      ⟨1/10, 2/10, 2/10, 1/10⟩ [0, 1] (fun _ => c8Pool) (fun _ => 0)
      (fun _ => 0) (fun _ => 4) = [c8Row0SpecFinal, c8Row1]
    rw [specOrderSummitBatch, hassemble, happly, hcf2, hmiss2]
    exact hdup _ rfl
  refine ⟨?_, ?_, ?_⟩
  · rw [h1]; decide
  · rw [h2]; decide
  · rw [h1, h2]; decide

/-- C8 amended: within each `generate_summit` batch pass the actual order is:
the Record Synthesizer assembles the rows, then the Missingness Injector
nulls fields and the Duplication Injector appends duplicate rows (both still
inside `_build_base_batch`), and only after that does the Overlap Applicator
mutate the batch; persistence follows. Missingness and duplication thus
precede overlap application, not the other way around. -/
theorem summitBatch_order (start_index : ℕ) (people : List Person)
    (addrs : List Address) (emails phones : List String)
    (me mp mpo mb : ℕ → Bool) (dupIdxs : List ℕ)
    (tw2 : ℕ → Option (Fin 10) × Option (Fin 10) × Bool × Bool × Fin 9)
    (pool : List Record) (plan : OverlapPlan) (perm : List ℕ)
    (src : ℕ → Record) (pick3 : ℕ → Fin 4) (pick2 : ℕ → Fin 6)
    (pick1 : ℕ → Fin 6) :
    summitBatchPipeline start_index people addrs emails phones me mp mpo mb
      dupIdxs tw2 pool plan perm src pick3 pick2 pick1 =
    applyOverlapToSummitBatch
      (addDuplicateProfiles
        (injectMissingness
          (assembleRows "Summit Sports" start_index people addrs emails phones)
          me mp mpo mb)
        duplicateProfileRatio dupIdxs tw2)
      pool summitOverlapRatio plan perm src pick3 pick2 pick1 := rfl

/-- Model of the single seedable pseudo-random generator (Python's `random`
module / `np.random`): a linear congruential step on a ℕ state. -/
def lcg (s : ℕ) : ℕ := (s * 1103515245 + 12345) % 2147483648

/-- `random.random()`: a draw in `[0, 1)` plus the successor state. -/
def randUnit (s : ℕ) : ℚ × ℕ := ((lcg s % 1000 : ℕ) / 1000, lcg s)

/-- `random.choice` / `random.randint(0, n-1)`: an index below `n` plus the
successor state. -/
def randIntBelow (s n : ℕ) : ℕ × ℕ := (lcg s % n, lcg s)

/-- `np.random.choice(pool, size=k, replace=False)` under a seeded state:
a deterministic without-replacement selection of `k` elements. -/
def npChoiceNoReplace (seed : ℕ) (pool : List ℕ) (k : ℕ) : List ℕ :=
  (pool.rotate seed).take k

/-- `french_domains` (crocevia_crm_generator.py, line 119). -/
def french_domains : List String :=
  ["gmail.com", "orange.fr", "free.fr", "wanadoo.fr", "sfr.fr", "laposte.net"]

/-- The `Faker("fr_FR")` instance after `fake.seed_instance(42)`: its output
sequence is a fixed function of the draw counter; the function is an input
(the same provider sequence is given to both runs being compared). -/
structure FakerOracle where
  firstName : ℕ → String
  lastName : ℕ → String
  email : ℕ → String
  phoneNumber : ℕ → String
  dateOfBirth : ℕ → String
  dateThisDecade : ℕ → String
  postcode : ℕ → String

/-- The per-loop context of `generate_crocevia_customers`: the sampled source
rows, their non-null email/phone pools, the overlap index sets, the selected
address indices and the loaded addresses. -/
structure CroceviaCtx where
  fake : FakerOracle
  sample : List Record
  srcEmails : List String
  srcPhones : List String
  tripleIdx : List ℕ
  emailIdx : List ℕ
  phoneIdx : List ℕ
  nameIdx : List ℕ
  addrSel : List ℕ
  addresses : List Address

/-- One iteration of the customer loop (crocevia_crm_generator.py,
lines 153-252), threading the `random`-module state `rng`, the Faker draw
counter `fk` and the address cursor `ad`. -/
def croceviaCustomer (ctx : CroceviaCtx) (i rng fk ad : ℕ) :
    Record × ℕ × ℕ × ℕ :=
  let ot := overlapTypeFor (decide (i ∈ ctx.tripleIdx)) (decide (i ∈ ctx.emailIdx))
    (decide (i ∈ ctx.phoneIdx)) (decide (i ∈ ctx.nameIdx))
  let base :=
    if ot = "TRIPLE" then
      let src := ctx.sample.getD (i % max ctx.sample.length 1) default
      (src.first_name, src.last_name, src.email, src.phone, rng, fk)
    else
      let first := ctx.fake.firstName fk
      let last := ctx.fake.lastName (fk + 1)
      let fk2 := fk + 2
      let em :=
        if ot = "EMAIL" ∨ ot = "EMAIL_PHONE" then
          let (j, rng1) := randIntBelow rng ctx.srcEmails.length
          (some (ctx.srcEmails.getD j ""), rng1, fk2)
        else
          let (u, rng1) := randUnit rng
          if u < 7/10 then
            let loc := (((first.toLower ++ "." ++ last.toLower).replace
              "'" "").replace "ç" "c").replace "é" "e"
            let (j, rng2) := randIntBelow rng1 french_domains.length
            (some (loc ++ "@" ++ french_domains.getD j ""), rng2, fk2)
          else
            let e := ctx.fake.email fk2
            let loc := (e.splitOn "@").headD e
            let (j, rng2) := randIntBelow rng1 french_domains.length
            (some (loc ++ "@" ++ french_domains.getD j ""), rng2, fk2 + 1)
      let (email0, rngE, fkE) := em
      let ph :=
        if ot = "PHONE" ∨ ot = "EMAIL_PHONE" then
          let (j, rng2) := randIntBelow rngE ctx.srcPhones.length
          (some (ctx.srcPhones.getD j ""), rng2, fkE)
        else
          (some (ctx.fake.phoneNumber fkE), rngE, fkE + 1)
      let (phone0, rngP, fkP) := ph
      if ot = "NAME" then
        let (j, rngN) := randIntBelow rngP ctx.sample.length
        let src := ctx.sample.getD j default
        (src.first_name, src.last_name, email0, phone0, rngN, fkP)
      else
        (some first, some last, email0, phone0, rngP, fkP)
  let (firstV, lastV, email1, phone1, rng1, fk1) := base
  let m1 :=
    if ot ≠ "TRIPLE" ∧ ot ≠ "EMAIL" ∧ ot ≠ "EMAIL_PHONE" then
      let (u, r) := randUnit rng1
      (if u < 15/100 then none else email1, r)
    else (email1, rng1)
  let (email2, rng2) := m1
  let m2 :=
    if ot ≠ "TRIPLE" ∧ ot ≠ "PHONE" ∧ ot ≠ "EMAIL_PHONE" then
      let (u, r) := randUnit rng2
      (if u < 20/100 then none else phone1, r)
    else (phone1, rng2)
  let (phone2, rng3) := m2
  let cid := "CRV-" ++ zeroPad10 i
  let d1 :=
    let (u, r) := randUnit rng3
    if u < 40/100 then (some (ctx.fake.dateOfBirth fk1), r, fk1 + 1)
    else (none, r, fk1)
  let (dob, rng4, fk2') := d1
  let reg := ctx.fake.dateThisDecade fk2'
  let fk3 := fk2' + 1
  let (mj, rng5) := randIntBelow rng4 2
  let marketing := mj = 0
  let a :=
    if i ∈ ctx.addrSel then
      let av := ctx.addresses.getD ad default
      (av.street, av.city, av.postal_code, av.latitude, av.longitude,
        rng5, fk3, ad + 1)
    else
      let (u, r) := randUnit rng5
      if u < 60/100 then
        (none, none, some (ctx.fake.postcode fk3), none, none, r, fk3 + 1, ad)
      else
        (none, none, none, none, none, r, fk3, ad)
  let (street, cityV, postal, lat, lon, rng6, fk4, ad1) := a
  ({ customer_id := cid
     first_name := firstV
     last_name := lastV
     email := email2
     phone := phone2
     street := street
     city := cityV
     postal_code := postal
     latitude := lat
     longitude := lon
     birth_date := dob
     registration_date := some reg
     marketing_opt_in := some marketing
     overlap_type := ot }, rng6, fk4, ad1)

/-- The customer loop: `k` iterations remaining, current index `i`. -/
def croceviaLoop (ctx : CroceviaCtx) : ℕ → ℕ → ℕ → ℕ → ℕ → List Record
  | 0, _, _, _, _ => []
  | k + 1, i, rng, fk, ad =>
    let (rec1, rng1, fk1, ad1) := croceviaCustomer ctx i rng fk ad
    rec1 :: croceviaLoop ctx k (i + 1) rng1 fk1 ad1

/-- `generate_crocevia_customers` (crocevia_crm_generator.py, lines 90-254).
`ambientRandom` and `ambientNp` model the global `random` / `np.random`
generator states at call time: lines 106 and 128 overwrite both by reseeding
with the constant 42, so the body derives every draw from the constant seed.
`fake` models the `Faker("fr_FR")` instance after `seed_instance(42)`;
`addresses` models the rows returned by `load_french_addresses` (external
warehouse data). `source_customers.take …` models the seeded
`df.sample(…, random_state=42)`, a fixed selection of the source rows. -/
def generate_crocevia_customers (ambientRandom ambientNp : ℕ)
    (fake : FakerOracle) (source_customers : List Record)
    (addresses : List Address) (num_customers source_sample_size : ℕ) :
    List Record :=
  let rng0 : ℕ := 42
  let np0 : ℕ := 42
  let sample := source_customers.take (min source_sample_size source_customers.length)
  let srcEmails := sample.filterMap Record.email
  let srcPhones := sample.filterMap Record.phone
  let tripleCount := (pyInt ((num_customers : ℚ) * (20/100))).toNat
  let emailCount := (pyInt ((num_customers : ℚ) * (60/100))).toNat
  let phoneCount := (pyInt ((num_customers : ℚ) * (50/100))).toNat
  let nameCount := (pyInt ((num_customers : ℚ) * (35/100))).toNat
  let addressCount := (pyInt ((num_customers : ℚ) * (50/100))).toNat
  let all_indices := List.range num_customers
  let tripleIdx := npChoiceNoReplace np0 all_indices tripleCount
  let np1 := lcg np0
  let remaining := all_indices.filter (fun i => i ∉ tripleIdx)
  let emailIdx := npChoiceNoReplace np1 remaining (emailCount - tripleCount)
  let np2 := lcg np1
  let phoneIdx := npChoiceNoReplace np2 remaining (phoneCount - tripleCount)
  let np3 := lcg np2
  let nameIdx := npChoiceNoReplace np3 remaining (nameCount - tripleCount)
  let np4 := lcg np3
  let addrSel := npChoiceNoReplace np4 all_indices addressCount
  croceviaLoop
    ⟨fake, sample, srcEmails, srcPhones, tripleIdx, emailIdx, phoneIdx,
      nameIdx, addrSel, addresses⟩
    num_customers 0 rng0 0 0

/-- C9: two runs of the customer generator with identical inputs (the same
source customer data, address rows and Faker provider sequence) produce
identical outputs, whatever the ambient global generator states were before
each run: the function reseeds the single generator with the fixed seed 42 at
entry, so its output depends only on its inputs. -/
theorem generate_crocevia_deterministic (a1 a2 b1 b2 : ℕ) (fake : FakerOracle)
    (source_customers : List Record) (addresses : List Address)
    (num_customers source_sample_size : ℕ) :
    generate_crocevia_customers a1 b1 fake source_customers addresses
      num_customers source_sample_size =
    generate_crocevia_customers a2 b2 fake source_customers addresses
      num_customers source_sample_size := rfl

end SummitSports
